import Mathlib

/-!
Verification of the scheduling core of `oriqoqo/nomad` (`scheduler/scheduler.go`).

The source file declares the scheduler registry (`BuiltinSchedulers`), the
`NewScheduler` constructor, and the interfaces `Scheduler`, `State`,
`ResultIterator` and `Planner`.  The registry and `NewScheduler` are embedded
directly from the Go code.  The behaviour hidden behind the interfaces
(the plan-arbitration protocol, the result cursor, registration and an
illustrative scheduler) is not under `src/`; those parts are modelled from
the specification, marked `Modelled from the spec:` in their doc comments.
-/

namespace Nomad

/-- Resource quantities reserved by an allocation or offered by a node
(spec data model: "CPU, memory, and similar quantities"). -/
structure Resources where
  cpu : Nat
  memoryMB : Nat
deriving DecidableEq, Repr

/-- Componentwise addition of resource quantities. -/
def Resources.add (a b : Resources) : Resources :=
  { cpu := a.cpu + b.cpu, memoryMB := a.memoryMB + b.memoryMB }

/-- `r` fits within capacity `cap` when every component is within budget. -/
def Resources.fits (r cap : Resources) : Prop :=
  r.cpu ≤ cap.cpu ∧ r.memoryMB ≤ cap.memoryMB

instance (r cap : Resources) : Decidable (r.fits cap) :=
  inferInstanceAs (Decidable (_ ∧ _))

/-- Node status (spec data model: ready/draining/down). -/
inductive NodeStatus where
  | ready
  | draining
  | down
deriving DecidableEq, Repr

/-- A schedulable resource host (spec data model `Node`). -/
structure Node where
  id : String
  capacity : Resources
  status : NodeStatus
deriving DecidableEq, Repr

/-- Desired status of an allocation (spec data model: run/stop). -/
inductive DesiredStatus where
  | run
  | stop
deriving DecidableEq, Repr

/-- A binding of one workload unit to one node with a resource reservation
(spec data model `Allocation`). -/
structure Allocation where
  id : String
  nodeID : String
  evalID : String
  resources : Resources
  desiredStatus : DesiredStatus
deriving DecidableEq, Repr

/-- An allocation is active when its desired status is `run`. -/
def Allocation.active (a : Allocation) : Bool :=
  match a.desiredStatus with
  | DesiredStatus.run => true
  | DesiredStatus.stop => false

/-- Sum of reserved resources of the active allocations placed on node
`nid` in the list `allocs`. -/
def reservedOn (nid : String) (allocs : List Allocation) : Resources :=
  { cpu := ((allocs.filter fun a => a.nodeID == nid && a.active).map
      fun a => a.resources.cpu).sum,
    memoryMB := ((allocs.filter fun a => a.nodeID == nid && a.active).map
      fun a => a.resources.memoryMB).sum }

/-- A proposed, not-yet-durable set of allocation creations produced by one
scheduler run (spec data model `Plan`). -/
structure Plan where
  evalID : String
  snapshotIndex : Nat
  allocs : List Allocation
deriving DecidableEq, Repr

/-- Reason codes attached to individually rejected allocations (spec 4.5). -/
inductive RejectReason where
  | capacityExceeded
  | nodeUnavailable
  | staleSnapshotConflict
deriving DecidableEq, Repr

/-- The arbiter's verdict on a submitted plan: per-allocation accept and
reject lists plus the state version the result is valid as of
(spec data model `Plan Result`). -/
structure PlanResult where
  accepted : List Allocation
  rejected : List (Allocation × RejectReason)
  resultIndex : Nat
deriving DecidableEq, Repr

/-- A versioned view of cluster state: nodes, committed allocations and a
monotonically increasing index (spec data model `State Snapshot`). -/
structure ClusterState where
  nodes : List Node
  allocs : List Allocation
  index : Nat
deriving DecidableEq, Repr

/-- Node identifiers are unique within a cluster state's node list
(spec data model: a `Node` has an identifier). -/
def NodupIds (nodes : List Node) : Prop :=
  (nodes.map Node.id).Nodup

instance (nodes : List Node) : Decidable (NodupIds nodes) :=
  inferInstanceAs (Decidable (nodes.map Node.id).Nodup)

/-- The capacity invariant: for every node, the sum of reserved resources of
all allocations with an active desired status never exceeds capacity. -/
def capacityOK (s : ClusterState) : Prop :=
  ∀ n ∈ s.nodes, (reservedOn n.id s.allocs).fits n.capacity

instance (s : ClusterState) : Decidable (capacityOK s) :=
  inferInstanceAs (Decidable (∀ n ∈ s.nodes, (reservedOn n.id s.allocs).fits n.capacity))

/-! ## The scheduler registry (embedded from `scheduler.go`)

Go's `map[string]Factory` is embedded as an association list with first-match
lookup; `Factory func(State, Planner) Scheduler` becomes a function type over
abstract `State`, `Planner` and `Scheduler` type parameters, since the Go
interfaces carry no data of their own. -/

/-- Embeds `type Factory func(State, Planner) Scheduler`. -/
def Factory (St Pl Sc : Type) : Type := St → Pl → Sc

/-- Embeds `var BuiltinSchedulers = map[string]Factory{}`: the registry's
initial value is the empty map. -/
def BuiltinSchedulers {St Pl Sc : Type} : List (String × Factory St Pl Sc) := []

/-- Embeds `func NewScheduler(name string, state State, planner Planner)
(Scheduler, error)`.  Go's two-value return `(Scheduler, error)` becomes a
pair of options: `(some sched, none)` on success, `(none, some msg)` on
failure.  The registry read by the Go function is passed explicitly. -/
def NewScheduler {St Pl Sc : Type} (reg : List (String × Factory St Pl Sc))
    (name : String) (state : St) (planner : Pl) : Option Sc × Option String :=
  match List.lookup name reg with
  | none => (none, some ("unknown scheduler '" ++ name ++ "'"))
  | some factory => (some (factory state planner), none)

/-- State-passing form of `NewScheduler`: the Go body contains no write to
`BuiltinSchedulers` or any other variable, so the embedding returns the
registry it was given in both branches. -/
def NewSchedulerSt {St Pl Sc : Type} (reg : List (String × Factory St Pl Sc))
    (name : String) (state : St) (planner : Pl) :
    (Option Sc × Option String) × List (String × Factory St Pl Sc) :=
  match List.lookup name reg with
  | none => ((none, some ("unknown scheduler '" ++ name ++ "'")), reg)
  | some factory => ((some (factory state planner), none), reg)

/-- Modelled from the spec: `Register(name, factory)` adds a factory to the
registry and "fails if `name` is already registered".  The repository source
under `src/` declares only the `BuiltinSchedulers` map itself; no
registration function is present there. -/
def Register {St Pl Sc : Type} (reg : List (String × Factory St Pl Sc))
    (name : String) (factory : Factory St Pl Sc) :
    Except String (List (String × Factory St Pl Sc)) :=
  match List.lookup name reg with
  | some _ => Except.error ("scheduler '" ++ name ++ "' already registered")
  | none => Except.ok ((name, factory) :: reg)

/-! ## The result cursor -/

/-- Modelled from the spec: a Result Cursor is "a lazy, forward-only sequence
abstraction"; `Next()` returns the next element or a sentinel "exhausted"
value.  The source declares `ResultIterator` only as an interface with
`Next() interface{}`, so the cursor is modelled as a position over the
remaining results, with `none` as the exhaustion sentinel (Go's `nil`). -/
structure ResultIterator (α : Type) where
  remaining : List α
deriving DecidableEq, Repr

/-- One `Next()` call: the next element (or the exhaustion sentinel `none`)
together with the cursor's successor state. -/
def ResultIterator.next {α : Type} (it : ResultIterator α) :
    Option α × ResultIterator α :=
  match it.remaining with
  | [] => (none, ⟨[]⟩)
  | x :: xs => (some x, ⟨xs⟩)

/-- The cursor state after one `Next()` call. -/
def ResultIterator.advance {α : Type} (it : ResultIterator α) : ResultIterator α :=
  it.next.2

/-! ## The plan arbitration protocol

The source declares `Planner` only as an interface
(`SubmitPlan(*structs.Plan) (*structs.PlanResult, State, error)`), so the
arbitration algorithm of spec section 4.5 is modelled from the spec. -/

/-- Modelled from the spec: the arbiter's per-allocation validation (spec 4.5
step 2): reject with `nodeUnavailable` if the target node is missing or no
longer ready; reject with `capacityExceeded` if the node's committed
reservation total including this proposal would exceed capacity; otherwise
accept (`none`). -/
def verdict (nodes : List Node) (committed : List Allocation)
    (a : Allocation) : Option RejectReason :=
  match nodes.find? (fun n => n.id == a.nodeID) with
  | none => some RejectReason.nodeUnavailable
  | some n =>
    if n.status = NodeStatus.ready then
      if (reservedOn a.nodeID (a :: committed)).fits n.capacity then none
      else some RejectReason.capacityExceeded
    else some RejectReason.nodeUnavailable

/-- Modelled from the spec: validate the plan's proposed allocations in
order, each against the committed reservations plus the allocations already
accepted in this pass; returns the accepted and rejected lists (spec 4.5
steps 2 and 4, with the first-validation-wins tie-break). -/
def arbitrate (nodes : List Node) (committed : List Allocation) :
    List Allocation → List Allocation × List (Allocation × RejectReason)
  | [] => ([], [])
  | a :: rest =>
    match verdict nodes committed a with
    | none =>
      let r := arbitrate nodes (a :: committed) rest
      (a :: r.1, r.2)
    | some reason =>
      let r := arbitrate nodes committed rest
      (r.1, (a, reason) :: r.2)

/-- Modelled from the spec: `SubmitPlan(plan) -> (PlanResult,
refreshedSnapshot, error)`.  Validates against the current state, commits
the accepted subset atomically, and returns the per-allocation plan result
together with a new snapshot reflecting the just-committed state (spec 4.5
steps 1-4; the infrastructure-fault error channel of step 3 is absent from
the model, which always commits durably). -/
def SubmitPlan (s : ClusterState) (p : Plan) : PlanResult × ClusterState :=
  let r := arbitrate s.nodes s.allocs p.allocs
  ({ accepted := r.1, rejected := r.2, resultIndex := s.index + 1 },
   { nodes := s.nodes, allocs := s.allocs ++ r.1, index := s.index + 1 })

/-- The sequence of cluster states produced by committing a sequence of
plans through the arbiter, one snapshot per committed plan. -/
def planTrace (s : ClusterState) : List Plan → List ClusterState
  | [] => []
  | p :: ps => (SubmitPlan s p).2 :: planTrace (SubmitPlan s p).2 ps

/-! ## An illustrative scheduler

The source declares `Scheduler` only as an interface
(`Process(*structs.Evaluation) error`), so the scheduler side is modelled
from the spec's illustrative-scheduler budget and contract (spec 2 and 4.4). -/

/-- Modelled from the spec: an Evaluation, "a unit of scheduling work", with
its identifier, scheduler-type tag, triggering job reference, and (for the
illustrative scheduler) the resource quantity the workload needs. -/
structure Evaluation where
  id : String
  schedulerType : String
  jobID : String
  needed : Resources
deriving DecidableEq, Repr

/-- Modelled from the spec: first-fit node choice for the illustrative
scheduler — the first ready node of the snapshot whose reservation plus the
needed resources still fits its capacity (spec 4.4 capacity safety on
proposal). -/
def firstFit (s : ClusterState) (need : Resources) : Option Node :=
  s.nodes.find? fun n =>
    decide (n.status = NodeStatus.ready) &&
      decide (((reservedOn n.id s.allocs).add need).fits n.capacity)

/-- Modelled from the spec: the plan proposing the evaluation's workload on
node `n`, tagged with the evaluation and the snapshot version it was
computed against. -/
def placementPlan (s : ClusterState) (ev : Evaluation) (n : Node) : Plan :=
  { evalID := ev.id, snapshotIndex := s.index,
    allocs := [{ id := ev.id ++ "-alloc-0", nodeID := n.id, evalID := ev.id,
                 resources := ev.needed, desiredStatus := DesiredStatus.run }] }

/-- Modelled from the spec: the illustrative scheduler's `Process` as a
relation between its inputs (snapshot and evaluation) and the plan it
produces — a first-fit placement when one exists, and the empty plan when
placement is infeasible (a normal, non-error outcome per spec 4.4). -/
inductive ProcessProduces : ClusterState → Evaluation → Plan → Prop where
  | place (s : ClusterState) (ev : Evaluation) (n : Node)
      (h : firstFit s ev.needed = some n) :
      ProcessProduces s ev (placementPlan s ev n)
  | infeasible (s : ClusterState) (ev : Evaluation)
      (h : firstFit s ev.needed = none) :
      ProcessProduces s ev { evalID := ev.id, snapshotIndex := s.index, allocs := [] }

/-! ## Theorems about the registry and `NewScheduler` -/

/-- Claim C2: for every scheduler-type name with no factory registered in
the registry, `NewScheduler` returns no scheduler and fails with the
"unknown scheduler" error. -/
theorem C2_unknown_name_fails {St Pl Sc : Type}
    (reg : List (String × Factory St Pl Sc)) (name : String) (st : St) (pl : Pl)
    (h : List.lookup name reg = none) :
    NewScheduler reg name st pl =
      (none, some ("unknown scheduler '" ++ name ++ "'")) := by
  simp [NewScheduler, h]

/-- Witness for C2 at the empty registry and the name "service". -/
theorem C2_unknown_name_fails_witness :
    List.lookup "service" ([] : List (String × Factory Nat Nat Nat)) = none
    ∧ NewScheduler ([] : List (String × Factory Nat Nat Nat)) "service" 0 0 =
        (none, some ("unknown scheduler '" ++ "service" ++ "'")) :=
  ⟨rfl, C2_unknown_name_fails [] "service" 0 0 rfl⟩

/-- Claim C3: for every registered scheduler-type name, `NewScheduler`
invokes the registered factory on the given state and planner and returns
exactly the scheduler the factory produced, with no error. -/
theorem C3_registered_name_invokes_factory {St Pl Sc : Type}
    (reg : List (String × Factory St Pl Sc)) (name : String)
    (f : Factory St Pl Sc) (st : St) (pl : Pl)
    (h : List.lookup name reg = some f) :
    NewScheduler reg name st pl = (some (f st pl), none) := by
  simp [NewScheduler, h]

/-- Witness for C3 at a one-entry registry whose factory adds its inputs. -/
theorem C3_registered_name_invokes_factory_witness :
    List.lookup "service"
        [("service", (fun a b => a + b : Factory Nat Nat Nat))] =
      some (fun a b => a + b)
    ∧ NewScheduler [("service", (fun a b => a + b : Factory Nat Nat Nat))]
        "service" 2 3 = (some 5, none) :=
  ⟨rfl, C3_registered_name_invokes_factory
    [("service", (fun a b => a + b : Factory Nat Nat Nat))] "service"
    (fun a b => a + b) 2 3 rfl⟩

/-- Claim C4: registering a name that is already registered fails rather
than silently overwriting the existing entry (settled against the
spec-modelled `Register`; the source contains no registration function). -/
theorem C4_duplicate_registration_fails {St Pl Sc : Type}
    (reg : List (String × Factory St Pl Sc)) (name : String)
    (f g : Factory St Pl Sc) (h : List.lookup name reg = some f) :
    Register reg name g =
      Except.error ("scheduler '" ++ name ++ "' already registered") := by
  simp [Register, h]

/-- Witness for C4 at a one-entry registry. -/
theorem C4_duplicate_registration_fails_witness :
    List.lookup "service"
        [("service", (fun a _ => a : Factory Nat Nat Nat))] = some (fun a _ => a)
    ∧ Register [("service", (fun a _ => a : Factory Nat Nat Nat))] "service"
        (fun _ b => b) =
      Except.error ("scheduler '" ++ "service" ++ "' already registered") :=
  ⟨rfl, C4_duplicate_registration_fails
    [("service", (fun a _ => a : Factory Nat Nat Nat))] "service"
    (fun a _ => a) (fun _ b => b) rfl⟩

/-- Claim C5: instantiation is side-effect free — the state-passing form of
`NewScheduler` returns the registry unchanged, and the same result as the
pure form, both on success and on the unknown-name failure. -/
theorem C5_instantiation_pure {St Pl Sc : Type}
    (reg : List (String × Factory St Pl Sc)) (name : String) (st : St) (pl : Pl) :
    (NewSchedulerSt reg name st pl).2 = reg
    ∧ (NewSchedulerSt reg name st pl).1 = NewScheduler reg name st pl := by
  cases h : List.lookup name reg <;> simp [NewSchedulerSt, NewScheduler, h]

/-- Claim C9: the registry starts empty, so `NewScheduler` over the initial
`BuiltinSchedulers` returns the unknown-scheduler error for every name,
state and planner. -/
theorem C9_initial_registry_rejects_all {St Pl Sc : Type}
    (name : String) (st : St) (pl : Pl) :
    NewScheduler (@BuiltinSchedulers St Pl Sc) name st pl =
      (none, some ("unknown scheduler '" ++ name ++ "'")) := rfl

/-- Claim C10: whenever `NewScheduler` returns an error, the returned
scheduler is `none` and the error message is exactly
`unknown scheduler '<name>'`. -/
theorem C10_error_shape {St Pl Sc : Type}
    (reg : List (String × Factory St Pl Sc)) (name : String) (st : St) (pl : Pl)
    (e : String) (h : (NewScheduler reg name st pl).2 = some e) :
    (NewScheduler reg name st pl).1 = none
    ∧ e = "unknown scheduler '" ++ name ++ "'" := by
  cases hl : List.lookup name reg with
  | none =>
    refine ⟨by simp [NewScheduler, hl], ?_⟩
    simp [NewScheduler, hl] at h
    exact h.symm
  | some f => simp [NewScheduler, hl] at h

/-- Witness for C10 at the empty registry and the name "service". -/
theorem C10_error_shape_witness :
    (NewScheduler ([] : List (String × Factory Nat Nat Nat)) "service" 0 0).2 =
      some ("unknown scheduler '" ++ "service" ++ "'")
    ∧ (NewScheduler ([] : List (String × Factory Nat Nat Nat)) "service" 0 0).1 =
        none
    ∧ "unknown scheduler '" ++ "service" ++ "'" =
        "unknown scheduler '" ++ "service" ++ "'" :=
  ⟨rfl, C10_error_shape [] "service" 0 0 _ rfl⟩

/-! ## Theorems about the result cursor -/

/-- Claim C6: once a cursor's `Next()` has returned the exhaustion sentinel
`none`, every subsequent call returns the same sentinel; the return type
carries no error channel, so exhaustion is not an error. -/
theorem C6_idempotent_exhaustion {α : Type} (it : ResultIterator α)
    (h : it.next.1 = none) (k : Nat) :
    (ResultIterator.advance^[k] it).next.1 = none := by
  obtain ⟨l⟩ := it
  cases l with
  | cons x xs => simp [ResultIterator.next] at h
  | nil =>
    have hfix : ResultIterator.advance (⟨[]⟩ : ResultIterator α) = ⟨[]⟩ := rfl
    rw [Function.iterate_fixed hfix k]
    rfl

/-- Witness for C6: an exhausted cursor over `Nat`, advanced three times. -/
theorem C6_idempotent_exhaustion_witness :
    (⟨[]⟩ : ResultIterator Nat).next.1 = none
    ∧ (ResultIterator.advance^[3] (⟨[]⟩ : ResultIterator Nat)).next.1 = none :=
  ⟨rfl, C6_idempotent_exhaustion ⟨[]⟩ rfl 3⟩

/-! ## Theorems about the arbitration protocol -/

/-- Reservations are additive over concatenation of allocation lists. -/
lemma reservedOn_append (nid : String) (l1 l2 : List Allocation) :
    reservedOn nid (l1 ++ l2) = (reservedOn nid l1).add (reservedOn nid l2) := by
  simp [reservedOn, Resources.add]

/-- Reservations are invariant under permutation of the allocation list. -/
lemma reservedOn_perm (nid : String) {l1 l2 : List Allocation}
    (h : l1.Perm l2) : reservedOn nid l1 = reservedOn nid l2 := by
  have hf := h.filter (fun a => a.nodeID == nid && a.active)
  unfold reservedOn
  rw [(hf.map fun a => a.resources.cpu).sum_eq,
    (hf.map fun a => a.resources.memoryMB).sum_eq]

/-- An allocation bound for a different node does not change a node's
reservation total. -/
lemma reservedOn_cons_ne (nid : String) (a : Allocation)
    (l : List Allocation) (h : a.nodeID ≠ nid) :
    reservedOn nid (a :: l) = reservedOn nid l := by
  simp [reservedOn, List.filter_cons, h]

/-- Core invariant-preservation lemma for the arbiter: if every node's
committed reservation fits its capacity, the same holds after appending the
allocations `arbitrate` accepts, because each acceptance re-checked the
target node's running total. -/
lemma arbitrate_capacity (nodes : List Node) (hnd : NodupIds nodes)
    (pending : List Allocation) :
    ∀ committed : List Allocation,
      (∀ n ∈ nodes, (reservedOn n.id committed).fits n.capacity) →
      ∀ n ∈ nodes,
        (reservedOn n.id ((arbitrate nodes committed pending).1 ++ committed)).fits
          n.capacity := by
  induction pending with
  | nil =>
    intro committed h n hn
    simpa [arbitrate] using h n hn
  | cons a rest ih =>
    intro committed h n hn
    cases hv : verdict nodes committed a with
    | some reason =>
      simp only [arbitrate, hv]
      exact ih committed h n hn
    | none =>
      have hstep : ∀ m ∈ nodes,
          (reservedOn m.id (a :: committed)).fits m.capacity := by
        intro m hm
        cases hf : nodes.find? (fun n => n.id == a.nodeID) with
        | none => simp [verdict, hf] at hv
        | some n0 =>
          have hn0id : n0.id = a.nodeID := by
            have := List.find?_some hf
            simpa using this
          by_cases hready : n0.status = NodeStatus.ready
          · by_cases hfit :
                (reservedOn a.nodeID (a :: committed)).fits n0.capacity
            · by_cases hid : m.id = a.nodeID
              · have hmem0 : n0 ∈ nodes := List.mem_of_find?_eq_some hf
                have hmn0 : m = n0 :=
                  List.inj_on_of_nodup_map hnd hm hmem0 (by rw [hid, hn0id])
                rw [hid, hmn0]
                exact hfit
              · rw [reservedOn_cons_ne m.id a committed fun hc => hid hc.symm]
                exact h m hm
            · simp [verdict, hf, hready, hfit] at hv
          · simp [verdict, hf, hready] at hv
      simp only [arbitrate, hv]
      have hres := ih (a :: committed) hstep n hn
      have hperm :
          ((a :: (arbitrate nodes (a :: committed) rest).1) ++ committed).Perm
            ((arbitrate nodes (a :: committed) rest).1 ++ (a :: committed)) := by
        simpa using List.perm_middle.symm
      rw [reservedOn_perm n.id hperm]
      exact hres

/-- Claim C1: for every sequence of plans committed through the arbiter from
a state with unique node ids satisfying the capacity invariant, every state
along the commit trace still satisfies the capacity invariant: no node's
active reservations ever exceed its capacity. -/
theorem C1_capacity_invariant (s : ClusterState) (hnd : NodupIds s.nodes)
    (hcap : capacityOK s) (ps : List Plan) :
    ∀ s' ∈ planTrace s ps, capacityOK s' := by
  induction ps generalizing s with
  | nil =>
    intro s' hs'
    simp [planTrace] at hs'
  | cons p rest ih =>
    intro s' hs'
    have hstep : capacityOK (SubmitPlan s p).2 := by
      intro n hn
      have hn' : n ∈ s.nodes := hn
      have hacc := arbitrate_capacity s.nodes hnd p.allocs s.allocs hcap n hn'
      have hperm :
          ((arbitrate s.nodes s.allocs p.allocs).1 ++ s.allocs).Perm
            (s.allocs ++ (arbitrate s.nodes s.allocs p.allocs).1) :=
        List.perm_append_comm
      show (reservedOn n.id
        (s.allocs ++ (arbitrate s.nodes s.allocs p.allocs).1)).fits n.capacity
      rw [← reservedOn_perm n.id hperm]
      exact hacc
    simp only [planTrace, List.mem_cons] at hs'
    rcases hs' with rfl | hs'
    · exact hstep
    · exact ih (SubmitPlan s p).2 hnd hstep s' hs'

/-- A one-node cluster with capacity ten and no allocations, used by the
concrete instantiations below. -/
def demoState : ClusterState :=
  ⟨[⟨"n1", ⟨10, 10⟩, NodeStatus.ready⟩], [], 0⟩

/-- Two single-allocation plans targeting the demo node: six units, then
five units (the second must be rejected by the arbiter). -/
def demoPlans : List Plan :=
  [⟨"ev1", 0, [⟨"a1", "n1", "ev1", ⟨6, 6⟩, DesiredStatus.run⟩]⟩,
   ⟨"ev2", 1, [⟨"a2", "n1", "ev2", ⟨5, 5⟩, DesiredStatus.run⟩]⟩]

/-- Witness for C1: one node of capacity ten; a six-unit plan followed by a
five-unit plan are committed, and every state in the trace keeps the
invariant (the second allocation is rejected by the arbiter). -/
theorem C1_capacity_invariant_witness :
    NodupIds demoState.nodes ∧ capacityOK demoState
    ∧ ∀ s' ∈ planTrace demoState demoPlans, capacityOK s' :=
  ⟨by decide, by decide,
    C1_capacity_invariant demoState (by decide) (by decide) demoPlans⟩

/-- Every proposed allocation receives exactly one individual verdict: the
accepted list and the underlying allocations of the rejected list together
are a permutation of the plan's proposed allocations. -/
lemma arbitrate_partition (nodes : List Node) (pending : List Allocation) :
    ∀ committed : List Allocation,
      ((arbitrate nodes committed pending).1 ++
        (arbitrate nodes committed pending).2.map Prod.fst).Perm pending := by
  induction pending with
  | nil => intro committed; simp [arbitrate]
  | cons a rest ih =>
    intro committed
    cases hv : verdict nodes committed a with
    | none =>
      simp only [arbitrate, hv, List.cons_append]
      exact (ih (a :: committed)).cons a
    | some reason =>
      simp only [arbitrate, hv, List.map_cons]
      exact List.perm_middle.trans ((ih committed).cons a)

/-- Claim C7: a successful `SubmitPlan` returns a plan result giving a
per-allocation verdict — the accepted and rejected lists partition the
plan's proposed allocations — together with a refreshed snapshot that
reflects the just-committed state: same nodes, the committed allocations
extended by exactly the accepted subset, and the next state index. -/
theorem C7_submit_plan_result_and_snapshot (s : ClusterState) (p : Plan) :
    ((SubmitPlan s p).1.accepted ++
        (SubmitPlan s p).1.rejected.map Prod.fst).Perm p.allocs
    ∧ (SubmitPlan s p).2.allocs = s.allocs ++ (SubmitPlan s p).1.accepted
    ∧ (SubmitPlan s p).2.nodes = s.nodes
    ∧ (SubmitPlan s p).2.index = s.index + 1
    ∧ (SubmitPlan s p).1.resultIndex = (SubmitPlan s p).2.index :=
  ⟨arbitrate_partition s.nodes p.allocs s.allocs, rfl, rfl, rfl, rfl⟩

/-- Claim C8: the modelled scheduler's `Process` is deterministic — two runs
relating the same snapshot and the same evaluation to output plans produce
the same plan. -/
theorem C8_process_deterministic (s : ClusterState) (ev : Evaluation)
    (p1 p2 : Plan) (h1 : ProcessProduces s ev p1)
    (h2 : ProcessProduces s ev p2) : p1 = p2 := by
  cases h1 with
  | place n hn =>
    cases h2 with
    | place m hm =>
      rw [hn] at hm
      cases hm
      rfl
    | infeasible hm => rw [hn] at hm; cases hm
  | infeasible hn =>
    cases h2 with
    | place m hm => rw [hn] at hm; cases hm
    | infeasible hm => rfl

/-- The demo evaluation: four units of work for the illustrative
first-fit scheduler. -/
def demoEval : Evaluation := ⟨"ev1", "service", "job1", ⟨4, 4⟩⟩

/-- The demo node, the only node of `demoState`. -/
def demoNode : Node := ⟨"n1", ⟨10, 10⟩, NodeStatus.ready⟩

/-- Witness for C8: on the demo cluster the first-fit scheduler places the
demo evaluation on the demo node, and two such runs yield the same plan. -/
theorem C8_process_deterministic_witness :
    ProcessProduces demoState demoEval (placementPlan demoState demoEval demoNode)
    ∧ placementPlan demoState demoEval demoNode =
        placementPlan demoState demoEval demoNode :=
  ⟨ProcessProduces.place demoState demoEval demoNode (by decide),
   C8_process_deterministic demoState demoEval _ _
     (ProcessProduces.place demoState demoEval demoNode (by decide))
     (ProcessProduces.place demoState demoEval demoNode (by decide))⟩

end Nomad
